import Mathlib

set_option maxHeartbeats 1000000

/-!
Verification development for the watchlist review service: a request
handler (validation, translation, outcome classification) over an
abstract storage port, together with a concrete relational-store model
backing the port.  All definitions are shallow embeddings of the Go
sources: the service layer (`ReviewService`), the storage contract
(`Repository` interface), and the `GormReview` persisted record.
-/

namespace WatchlistReview

/-- Go conversion `uint(x)` from a proto int64 field: wraps modulo 2^64. -/
def uintOfInt64 (x : Int) : Nat :=
  (x % ((2 : Int) ^ 64)).toNat

/-- Go conversion `int64(u)` from a uint value: low 64 bits, sign-extended. -/
def int64OfUint (u : Nat) : Int :=
  let v : Nat := u % 2 ^ 64
  if v < 2 ^ 63 then (v : Int) else (v : Int) - 2 ^ 64

/-- Go conversion `int32(x)` from int: low 32 bits, sign-extended. -/
def int32OfInt (x : Int) : Int :=
  let v := x % 2 ^ 32
  if v < 2 ^ 31 then v else v - 2 ^ 32

/-- Modelled from the spec: `time.Time.Format(time.RFC3339)` comes from the Go
standard library, which is not part of the repository sources.  The spec fixes
only that `createdAt`/`updatedAt` are RFC3339 timestamp strings maintained by
the storage engine; instants are modelled as abstract clock ticks and the
RFC3339 rendering as an injective string image of the instant. -/
def timeFormatRFC3339 (t : Nat) : String :=
  toString t

/-- `repository.GormReview`: the persisted review row.  Go `uint` fields are
modelled as `Nat`, Go `int` as `Int`, `time.Time` as abstract clock ticks. -/
structure GormReview where
  ID : Nat
  MediaID : Nat
  UserID : Nat
  Content : String
  Rating : Int
  CreatedAt : Nat
  UpdatedAt : Nat
deriving DecidableEq

/-- `review.Review`: the wire-format (proto) review record. -/
structure ProtoReview where
  Id : Int
  MediaId : Int
  UserId : Int
  Content : String
  Rating : Int
  CreatedAt : String
  UpdatedAt : String
deriving DecidableEq

/-- `review.CreateReviewRequest` (proto): int64 ids, int32 rating. -/
structure CreateReviewRequest where
  MediaId : Int
  UserId : Int
  Content : String
  Rating : Int
deriving DecidableEq

/-- `review.GetReviewRequest` (proto). -/
structure GetReviewRequest where
  Id : Int
deriving DecidableEq

/-- `review.UpdateReviewRequest` (proto). -/
structure UpdateReviewRequest where
  Id : Int
  Content : String
  Rating : Int
deriving DecidableEq

/-- `review.DeleteReviewRequest` (proto). -/
structure DeleteReviewRequest where
  Id : Int
deriving DecidableEq

/-- `review.GetByRatingRequest` (proto). -/
structure GetByRatingRequest where
  Rating : Int
deriving DecidableEq

/-- `review.GetByUserRequest` (proto). -/
structure GetByUserRequest where
  UserId : Int
deriving DecidableEq

/-- `review.GetByMediaRequest` (proto). -/
structure GetByMediaRequest where
  MediaId : Int
deriving DecidableEq

/-- Errors surfaced by the storage port: `repository.ErrReviewNotFound` is the
distinguished sentinel (`errors.Is` comparison in the service); every other
failure (connectivity, constraint violation, a cancelled context seen inside
the adapter, ...) is opaque to the service and carries an abstract detail. -/
inductive RepoErr where
  | notFound
  | other (detail : Nat)
deriving DecidableEq

/-- The gRPC status codes the service produces on failure. -/
inductive Code where
  | canceled
  | invalidArgument
  | notFound
  | internal
deriving DecidableEq

/-- One call issued to the storage port, with its arguments: the trace of
these calls is what the service's storage interaction consists of. -/
inductive RepoCall where
  | create (r : GormReview)
  | getByID (id : Nat)
  | update (r : GormReview)
  | delete (id : Nat)
  | getAll
  | getByRating (rating : Int)
  | getByUser (userID : Nat)
  | getByMedia (mediaID : Nat)
deriving DecidableEq

/-- `repository.Repository`: the storage port contract, as response functions
over an abstract storage state `σ`.  `create` reports the engine-assigned
(id, createdAt, updatedAt) on success (gorm writes them back into the passed
record); the other operations match the Go interface directly. -/
structure Repo (σ : Type) where
  create : GormReview → σ → Except RepoErr (Nat × Nat × Nat) × σ
  getByID : Nat → σ → Except RepoErr GormReview × σ
  update : GormReview → σ → Except RepoErr Unit × σ
  delete : Nat → σ → Except RepoErr Unit × σ
  getAll : σ → Except RepoErr (List GormReview) × σ
  getByRating : Int → σ → Except RepoErr (List GormReview) × σ
  getByUser : Nat → σ → Except RepoErr (List GormReview) × σ
  getByMedia : Nat → σ → Except RepoErr (List GormReview) × σ

variable {σ : Type}

/-- `ReviewService.checkContextCancelled`: the select on `ctx.Done()` reports
whether the execution context was already cancelled at operation entry.  The
context is modelled by this single boolean. -/
def checkContextCancelled (cancelled : Bool) : Bool :=
  cancelled

/-- `service.ConvertToProtoReview`: translate a stored record to wire form. -/
def ConvertToProtoReview (g : GormReview) : ProtoReview :=
  { Id := int64OfUint g.ID
    MediaId := int64OfUint g.MediaID
    UserId := int64OfUint g.UserID
    Content := g.Content
    Rating := int32OfInt g.Rating
    CreatedAt := timeFormatRFC3339 g.CreatedAt
    UpdatedAt := timeFormatRFC3339 g.UpdatedAt }

/-- The `repository.GormReview` literal built inside `ReviewService.Create`:
Go zero values for the engine-assigned fields, request fields otherwise. -/
def gormReviewOfCreate (req : CreateReviewRequest) : GormReview :=
  { ID := 0
    MediaID := uintOfInt64 req.MediaId
    UserID := uintOfInt64 req.UserId
    Content := req.Content
    Rating := req.Rating
    CreatedAt := 0
    UpdatedAt := 0 }

/-- `ReviewService.Create`: context check, rating-range validation, then the
storage create; on success the response is the translation of the record with
the engine-assigned fields written back.  Results are (outcome, trace of
storage calls, final storage state). -/
def ReviewService.create (cancelled : Bool) (repo : Repo σ)
    (req : CreateReviewRequest) (s : σ) :
    Except Code ProtoReview × List RepoCall × σ :=
  if checkContextCancelled cancelled then
    (.error .canceled, [], s)
  else if req.Rating < 1 ∨ req.Rating > 10 then
    (.error .invalidArgument, [], s)
  else
    let gormReview := gormReviewOfCreate req
    match repo.create gormReview s with
    | (.error _, s1) => (.error .internal, [.create gormReview], s1)
    | (.ok (id, createdAt, updatedAt), s1) =>
        let stored := { gormReview with
          ID := id, CreatedAt := createdAt, UpdatedAt := updatedAt }
        (.ok (ConvertToProtoReview stored), [.create gormReview], s1)

/-- `ReviewService.GetByID`: context check, then the storage lookup;
`ErrReviewNotFound` maps to `NotFound`, other failures to `Internal`. -/
def ReviewService.getByID (cancelled : Bool) (repo : Repo σ)
    (req : GetReviewRequest) (s : σ) :
    Except Code ProtoReview × List RepoCall × σ :=
  if checkContextCancelled cancelled then
    (.error .canceled, [], s)
  else
    match repo.getByID (uintOfInt64 req.Id) s with
    | (.error .notFound, s1) =>
        (.error .notFound, [.getByID (uintOfInt64 req.Id)], s1)
    | (.error (.other _), s1) =>
        (.error .internal, [.getByID (uintOfInt64 req.Id)], s1)
    | (.ok r, s1) =>
        (.ok (ConvertToProtoReview r), [.getByID (uintOfInt64 req.Id)], s1)

/-- The record `ReviewService.Update` persists: non-empty request content
replaces the stored content, nonzero request rating replaces the stored
rating (content first, exactly as in the Go method body). -/
def mergedReview (r0 : GormReview) (req : UpdateReviewRequest) : GormReview :=
  let r1 := if req.Content ≠ "" then { r0 with Content := req.Content } else r0
  if req.Rating ≠ 0 then { r1 with Rating := req.Rating } else r1

/-- `ReviewService.Update`: context check, fetch of the current record (same
not-found semantics as GetByID), rating validation for a nonzero rating, then
the storage update of the merged record. -/
def ReviewService.update (cancelled : Bool) (repo : Repo σ)
    (req : UpdateReviewRequest) (s : σ) :
    Except Code ProtoReview × List RepoCall × σ :=
  if checkContextCancelled cancelled then
    (.error .canceled, [], s)
  else
    match repo.getByID (uintOfInt64 req.Id) s with
    | (.error .notFound, s1) =>
        (.error .notFound, [.getByID (uintOfInt64 req.Id)], s1)
    | (.error (.other _), s1) =>
        (.error .internal, [.getByID (uintOfInt64 req.Id)], s1)
    | (.ok r0, s1) =>
        if req.Rating ≠ 0 ∧ (req.Rating < 1 ∨ req.Rating > 10) then
          (.error .invalidArgument, [.getByID (uintOfInt64 req.Id)], s1)
        else
          let r2 := mergedReview r0 req
          match repo.update r2 s1 with
          | (.error _, s2) =>
              (.error .internal,
               [.getByID (uintOfInt64 req.Id), .update r2], s2)
          | (.ok _, s2) =>
              (.ok (ConvertToProtoReview r2),
               [.getByID (uintOfInt64 req.Id), .update r2], s2)

/-- `ReviewService.Delete`: context check, existence check via the storage
lookup (not-found maps to `NotFound`), then the storage delete; `Success`
flag on success. -/
def ReviewService.delete (cancelled : Bool) (repo : Repo σ)
    (req : DeleteReviewRequest) (s : σ) :
    Except Code Bool × List RepoCall × σ :=
  if checkContextCancelled cancelled then
    (.error .canceled, [], s)
  else
    match repo.getByID (uintOfInt64 req.Id) s with
    | (.error .notFound, s1) =>
        (.error .notFound, [.getByID (uintOfInt64 req.Id)], s1)
    | (.error (.other _), s1) =>
        (.error .internal, [.getByID (uintOfInt64 req.Id)], s1)
    | (.ok _, s1) =>
        match repo.delete (uintOfInt64 req.Id) s1 with
        | (.error _, s2) =>
            (.error .internal,
             [.getByID (uintOfInt64 req.Id), .delete (uintOfInt64 req.Id)], s2)
        | (.ok _, s2) =>
            (.ok true,
             [.getByID (uintOfInt64 req.Id), .delete (uintOfInt64 req.Id)], s2)

/-- `ReviewService.GetAll`: context check, then the unfiltered scan, each row
translated to wire form. -/
def ReviewService.getAll (cancelled : Bool) (repo : Repo σ) (s : σ) :
    Except Code (List ProtoReview) × List RepoCall × σ :=
  if checkContextCancelled cancelled then
    (.error .canceled, [], s)
  else
    match repo.getAll s with
    | (.error _, s1) => (.error .internal, [.getAll], s1)
    | (.ok rs, s1) => (.ok (rs.map ConvertToProtoReview), [.getAll], s1)

/-- `ReviewService.GetByRating`: context check, rating-range validation, then
the rating-filtered scan. -/
def ReviewService.getByRating (cancelled : Bool) (repo : Repo σ)
    (req : GetByRatingRequest) (s : σ) :
    Except Code (List ProtoReview) × List RepoCall × σ :=
  if checkContextCancelled cancelled then
    (.error .canceled, [], s)
  else if req.Rating < 1 ∨ req.Rating > 10 then
    (.error .invalidArgument, [], s)
  else
    match repo.getByRating req.Rating s with
    | (.error _, s1) => (.error .internal, [.getByRating req.Rating], s1)
    | (.ok rs, s1) =>
        (.ok (rs.map ConvertToProtoReview), [.getByRating req.Rating], s1)

/-- `ReviewService.GetByUser`: context check, then the author-filtered scan. -/
def ReviewService.getByUser (cancelled : Bool) (repo : Repo σ)
    (req : GetByUserRequest) (s : σ) :
    Except Code (List ProtoReview) × List RepoCall × σ :=
  if checkContextCancelled cancelled then
    (.error .canceled, [], s)
  else
    match repo.getByUser (uintOfInt64 req.UserId) s with
    | (.error _, s1) =>
        (.error .internal, [.getByUser (uintOfInt64 req.UserId)], s1)
    | (.ok rs, s1) =>
        (.ok (rs.map ConvertToProtoReview),
         [.getByUser (uintOfInt64 req.UserId)], s1)

/-- `ReviewService.GetByMedia`: context check, then the media-filtered scan. -/
def ReviewService.getByMedia (cancelled : Bool) (repo : Repo σ)
    (req : GetByMediaRequest) (s : σ) :
    Except Code (List ProtoReview) × List RepoCall × σ :=
  if checkContextCancelled cancelled then
    (.error .canceled, [], s)
  else
    match repo.getByMedia (uintOfInt64 req.MediaId) s with
    | (.error _, s1) =>
        (.error .internal, [.getByMedia (uintOfInt64 req.MediaId)], s1)
    | (.ok rs, s1) =>
        (.ok (rs.map ConvertToProtoReview),
         [.getByMedia (uintOfInt64 req.MediaId)], s1)

/-- The relational store behind `PostgresRepository`: a single review table,
the auto-increment counter for the primary key, and the engine clock. -/
structure Store where
  rows : List GormReview
  nextId : Nat
  now : Nat
deriving DecidableEq

/-- Modelled from the spec (persisted-row shape): the relational engine behind
`PostgresRepository` (gorm over PostgreSQL, not part of the repository
sources) assigns the auto-incrementing primary key and the
autoCreateTime/autoUpdateTime columns on insert. -/
def Store.createRow (s : Store) (r : GormReview) :
    Except RepoErr (Nat × Nat × Nat) × Store :=
  let stored := { r with ID := s.nextId, CreatedAt := s.now, UpdatedAt := s.now }
  (.ok (s.nextId, s.now, s.now),
   { s with rows := s.rows ++ [stored], nextId := s.nextId + 1 })

/-- `db.First(&review, id)`: point lookup by primary key; no matching row is
the distinguished not-found condition. -/
def Store.getRow (s : Store) (id : Nat) : Except RepoErr GormReview × Store :=
  (match s.rows.find? (fun q => q.ID == id) with
   | some r => .ok r
   | none => .error .notFound, s)

/-- `db.Save(review)`: full-row update of the row with the matching primary
key; the engine bumps the autoUpdateTime column. -/
def Store.saveRow (s : Store) (r : GormReview) : Except RepoErr Unit × Store :=
  (.ok (),
   { s with rows :=
      s.rows.map (fun q => if q.ID == r.ID then { r with UpdatedAt := s.now } else q) })

/-- `db.Delete(&GormReview\x7b\x7d, id)`: hard delete by primary key. -/
def Store.deleteRow (s : Store) (id : Nat) : Except RepoErr Unit × Store :=
  (.ok (), { s with rows := s.rows.filter (fun q => q.ID != id) })

/-- `db.Find(&reviews)`: unfiltered scan. -/
def Store.allRows (s : Store) : Except RepoErr (List GormReview) × Store :=
  (.ok s.rows, s)

/-- Equality-filtered scan on the rating column. -/
def Store.rowsByRating (s : Store) (rating : Int) :
    Except RepoErr (List GormReview) × Store :=
  (.ok (s.rows.filter (fun q => q.Rating == rating)), s)

/-- Equality-filtered scan on the author column. -/
def Store.rowsByUser (s : Store) (userID : Nat) :
    Except RepoErr (List GormReview) × Store :=
  (.ok (s.rows.filter (fun q => q.UserID == userID)), s)

/-- Equality-filtered scan on the media column. -/
def Store.rowsByMedia (s : Store) (mediaID : Nat) :
    Except RepoErr (List GormReview) × Store :=
  (.ok (s.rows.filter (fun q => q.MediaID == mediaID)), s)

/-- `PostgresRepository`: the concrete adapter over the relational store.
Each operation first checks the context (an already-cancelled context
surfaces `ctx.Err()`, an opaque non-not-found error, modelled with detail 1)
and then performs the single-table operation. -/
def storeRepo (cancelled : Bool) : Repo Store :=
  { create := fun r s =>
      if cancelled then (.error (.other 1), s) else Store.createRow s r
    getByID := fun id s =>
      if cancelled then (.error (.other 1), s) else Store.getRow s id
    update := fun r s =>
      if cancelled then (.error (.other 1), s) else Store.saveRow s r
    delete := fun id s =>
      if cancelled then (.error (.other 1), s) else Store.deleteRow s id
    getAll := fun s =>
      if cancelled then (.error (.other 1), s) else Store.allRows s
    getByRating := fun rating s =>
      if cancelled then (.error (.other 1), s) else Store.rowsByRating s rating
    getByUser := fun userID s =>
      if cancelled then (.error (.other 1), s) else Store.rowsByUser s userID
    getByMedia := fun mediaID s =>
      if cancelled then (.error (.other 1), s) else Store.rowsByMedia s mediaID }

/-- A storage port in which every operation fails opaquely (connectivity
loss, for instance): used to exhibit the `Internal` classification. -/
def failRepo : Repo Unit :=
  { create := fun _ s => (.error (.other 0), s)
    getByID := fun _ s => (.error (.other 0), s)
    update := fun _ s => (.error (.other 0), s)
    delete := fun _ s => (.error (.other 0), s)
    getAll := fun s => (.error (.other 0), s)
    getByRating := fun _ s => (.error (.other 0), s)
    getByUser := fun _ s => (.error (.other 0), s)
    getByMedia := fun _ s => (.error (.other 0), s) }

/-- A sample stored row. -/
def row1 : GormReview :=
  { ID := 1, MediaID := 7, UserID := 3, Content := "great", Rating := 9
    CreatedAt := 5, UpdatedAt := 5 }

/-- An empty store. -/
def store0 : Store :=
  { rows := [], nextId := 1, now := 4 }

/-- A store holding the sample row. -/
def store1 : Store :=
  { rows := [row1], nextId := 2, now := 6 }

/-- Sample create request (the spec scenario's create, rating 9). -/
def creq9 : CreateReviewRequest :=
  { MediaId := 7, UserId := 3, Content := "great", Rating := 9 }

/-- Sample create request with empty content and in-range rating. -/
def creqEmpty : CreateReviewRequest :=
  { MediaId := 7, UserId := 3, Content := "", Rating := 5 }

/-- Sample create request with out-of-range rating. -/
def creq11 : CreateReviewRequest :=
  { MediaId := 7, UserId := 3, Content := "great", Rating := 11 }

/-- Sample lookup request for the stored row. -/
def greq1 : GetReviewRequest :=
  { Id := 1 }

/-- Sample lookup request for an absent id. -/
def greq9 : GetReviewRequest :=
  { Id := 9 }

/-- Sample no-op update request (empty content, zero rating). -/
def ureq0 : UpdateReviewRequest :=
  { Id := 1, Content := "", Rating := 0 }

/-- Sample update request with out-of-range rating. -/
def ureq11 : UpdateReviewRequest :=
  { Id := 1, Content := "", Rating := 11 }

/-- Sample delete request for the stored row. -/
def dreq1 : DeleteReviewRequest :=
  { Id := 1 }

/-- Sample delete request for an absent id. -/
def dreq9 : DeleteReviewRequest :=
  { Id := 9 }

/-- Sample in-range rating filter request. -/
def rreq5 : GetByRatingRequest :=
  { Rating := 5 }

/-- Sample out-of-range rating filter request. -/
def rreq11 : GetByRatingRequest :=
  { Rating := 11 }

/-- Sample author filter request. -/
def uflt3 : GetByUserRequest :=
  { UserId := 3 }

/-- Sample media filter request. -/
def mflt7 : GetByMediaRequest :=
  { MediaId := 7 }

/-- C4: every operation (Create, GetByID, Update, Delete, GetAll, GetByRating,
GetByUser, GetByMedia) invoked with an already-cancelled execution context
returns the Canceled outcome, issues zero storage calls, and leaves the
storage state unchanged. -/
theorem cancelled_context_rejects_without_storage (repo : Repo σ) (s : σ)
    (creq : CreateReviewRequest) (greq : GetReviewRequest)
    (ureq : UpdateReviewRequest) (dreq : DeleteReviewRequest)
    (rreq : GetByRatingRequest) (ureq2 : GetByUserRequest)
    (mreq : GetByMediaRequest) :
    ReviewService.create true repo creq s = (.error .canceled, [], s) ∧
    ReviewService.getByID true repo greq s = (.error .canceled, [], s) ∧
    ReviewService.update true repo ureq s = (.error .canceled, [], s) ∧
    ReviewService.delete true repo dreq s = (.error .canceled, [], s) ∧
    ReviewService.getAll true repo s = (.error .canceled, [], s) ∧
    ReviewService.getByRating true repo rreq s = (.error .canceled, [], s) ∧
    ReviewService.getByUser true repo ureq2 s = (.error .canceled, [], s) ∧
    ReviewService.getByMedia true repo mreq s = (.error .canceled, [], s) :=
  ⟨rfl, rfl, rfl, rfl, rfl, rfl, rfl, rfl⟩

/-- C1: for every rating value, Create rejects with InvalidArgument exactly
when the rating is outside [1,10] (and then makes no storage call);
GetByRating likewise; Update rejects with InvalidArgument exactly when the
request rating is nonzero and outside [1,10], and a zero rating on Update is
accepted and the record written back keeps the stored rating. -/
theorem rating_range_validation (repo : Repo σ) (s : σ)
    (creq : CreateReviewRequest) (rreq : GetByRatingRequest)
    (ureq : UpdateReviewRequest) (r0 : GormReview) (s1 : σ)
    (hget : repo.getByID (uintOfInt64 ureq.Id) s = (.ok r0, s1)) :
    ((ReviewService.create false repo creq s).1 = .error .invalidArgument ↔
        (creq.Rating < 1 ∨ creq.Rating > 10)) ∧
    ((creq.Rating < 1 ∨ creq.Rating > 10) →
        (ReviewService.create false repo creq s).2.1 = []) ∧
    ((ReviewService.getByRating false repo rreq s).1 = .error .invalidArgument ↔
        (rreq.Rating < 1 ∨ rreq.Rating > 10)) ∧
    ((rreq.Rating < 1 ∨ rreq.Rating > 10) →
        (ReviewService.getByRating false repo rreq s).2.1 = []) ∧
    ((ReviewService.update false repo ureq s).1 = .error .invalidArgument ↔
        (ureq.Rating ≠ 0 ∧ (ureq.Rating < 1 ∨ ureq.Rating > 10))) ∧
    (ureq.Rating = 0 →
        (ReviewService.update false repo ureq s).2.1 =
          [.getByID (uintOfInt64 ureq.Id), .update (mergedReview r0 ureq)] ∧
        (mergedReview r0 ureq).Rating = r0.Rating) := by
  refine ⟨?_, ?_, ?_, ?_, ?_, ?_⟩
  · by_cases hP : creq.Rating < 1 ∨ creq.Rating > 10
    · simp [ReviewService.create, checkContextCancelled, hP]
    · rcases hc : repo.create (gormReviewOfCreate creq) s with ⟨e | ⟨i, c, u⟩, s2⟩
      all_goals simp [ReviewService.create, checkContextCancelled, hP, hc]
  · intro hP
    simp [ReviewService.create, checkContextCancelled, hP]
  · by_cases hP : rreq.Rating < 1 ∨ rreq.Rating > 10
    · simp [ReviewService.getByRating, checkContextCancelled, hP]
    · rcases hc : repo.getByRating rreq.Rating s with ⟨e | rs, s2⟩
      all_goals simp [ReviewService.getByRating, checkContextCancelled, hP, hc]
  · intro hP
    simp [ReviewService.getByRating, checkContextCancelled, hP]
  · by_cases hQ : ureq.Rating ≠ 0 ∧ (ureq.Rating < 1 ∨ ureq.Rating > 10)
    · simp [ReviewService.update, checkContextCancelled, hget, hQ]
    · rcases hu : repo.update (mergedReview r0 ureq) s1 with ⟨e | v, s2⟩
      all_goals simp [ReviewService.update, checkContextCancelled, hget, hQ, hu]
  · intro hz
    have hQ : ¬(ureq.Rating ≠ 0 ∧ (ureq.Rating < 1 ∨ ureq.Rating > 10)) := by
      simp [hz]
    constructor
    · rcases hu : repo.update (mergedReview r0 ureq) s1 with ⟨e | v, s2⟩
      all_goals simp [ReviewService.update, checkContextCancelled, hget, hQ, hu]
    · simp only [mergedReview, hz]
      split
      · rename_i h
        exact absurd rfl h
      · split <;> rfl

/-- C1 witness: the validation behavior at the sample store and requests. -/
theorem rating_range_validation_witness :
    ((ReviewService.create false (storeRepo false) creq9 store1).1 =
        .error .invalidArgument ↔ (creq9.Rating < 1 ∨ creq9.Rating > 10)) ∧
    ((creq9.Rating < 1 ∨ creq9.Rating > 10) →
        (ReviewService.create false (storeRepo false) creq9 store1).2.1 = []) ∧
    ((ReviewService.getByRating false (storeRepo false) rreq5 store1).1 =
        .error .invalidArgument ↔ (rreq5.Rating < 1 ∨ rreq5.Rating > 10)) ∧
    ((rreq5.Rating < 1 ∨ rreq5.Rating > 10) →
        (ReviewService.getByRating false (storeRepo false) rreq5 store1).2.1 = []) ∧
    ((ReviewService.update false (storeRepo false) ureq0 store1).1 =
        .error .invalidArgument ↔
        (ureq0.Rating ≠ 0 ∧ (ureq0.Rating < 1 ∨ ureq0.Rating > 10))) ∧
    (ureq0.Rating = 0 →
        (ReviewService.update false (storeRepo false) ureq0 store1).2.1 =
          [.getByID (uintOfInt64 ureq0.Id), .update (mergedReview row1 ureq0)] ∧
        (mergedReview row1 ureq0).Rating = row1.Rating) :=
  rating_range_validation (storeRepo false) store1 creq9 rreq5 ureq0 row1 store1
    rfl

/-- C2: when the storage port reports that no record matches the id, GetByID
returns NotFound (hence not Internal); when the storage port reports any
other failure, GetByID returns Internal (hence not NotFound). -/
theorem getByID_outcome_classification (repo : Repo σ)
    (greq : GetReviewRequest) (s : σ) :
    (∀ s1, repo.getByID (uintOfInt64 greq.Id) s = (.error .notFound, s1) →
        (ReviewService.getByID false repo greq s).1 = .error Code.notFound) ∧
    (∀ d s1, repo.getByID (uintOfInt64 greq.Id) s = (.error (.other d), s1) →
        (ReviewService.getByID false repo greq s).1 = .error Code.internal) := by
  constructor
  · intro s1 h
    simp [ReviewService.getByID, checkContextCancelled, h]
  · intro d s1 h
    simp [ReviewService.getByID, checkContextCancelled, h]

/-- C2 witness: a lookup on an empty store is NotFound; a lookup against a
failing storage port is Internal. -/
theorem getByID_outcome_classification_witness :
    (ReviewService.getByID false (storeRepo false) greq9 store0).1 =
      .error Code.notFound ∧
    (ReviewService.getByID false failRepo greq9 ()).1 =
      .error Code.internal :=
  ⟨(getByID_outcome_classification (storeRepo false) greq9 store0).1 store0 rfl,
   (getByID_outcome_classification failRepo greq9 ()).2 0 () rfl⟩

/-- C3: on an existing record, Update with empty content and zero rating
returns the record with every caller-visible field as held before the call,
and the only change to the stored state is the engine's updatedAt bump on
that row. -/
theorem update_noop_preserves_record (s : Store) (i : Int) (r0 : GormReview)
    (hfind : s.rows.find? (fun q => q.ID == uintOfInt64 i) = some r0) :
    (ReviewService.update false (storeRepo false)
        { Id := i, Content := "", Rating := 0 } s).1 =
      .ok (ConvertToProtoReview r0) ∧
    ((ReviewService.update false (storeRepo false)
        { Id := i, Content := "", Rating := 0 } s).2.2).rows =
      s.rows.map (fun q =>
        if q.ID == r0.ID then { r0 with UpdatedAt := s.now } else q) := by
  have hmerge : mergedReview r0 { Id := i, Content := "", Rating := 0 } = r0 := by
    simp [mergedReview]
  constructor
  · simp [ReviewService.update, checkContextCancelled, storeRepo, Store.getRow,
      hfind, hmerge, Store.saveRow]
  · simp [ReviewService.update, checkContextCancelled, storeRepo, Store.getRow,
      hfind, hmerge, Store.saveRow]

/-- C3 witness: the no-op update on the sample store. -/
theorem update_noop_preserves_record_witness :
    (ReviewService.update false (storeRepo false)
        { Id := 1, Content := "", Rating := 0 } store1).1 =
      .ok (ConvertToProtoReview row1) ∧
    ((ReviewService.update false (storeRepo false)
        { Id := 1, Content := "", Rating := 0 } store1).2.2).rows =
      store1.rows.map (fun q =>
        if q.ID == row1.ID then { row1 with UpdatedAt := store1.now } else q) :=
  update_noop_preserves_record store1 1 row1 rfl

/-- C5: Delete on an id the storage port reports as absent returns NotFound
and issues no delete call; on an existing id the existence check precedes the
delete call, a successful delete returns the success flag, and a failing
storage call (either the check or the delete) yields Internal. -/
theorem delete_checks_existence_first (repo : Repo σ)
    (dreq : DeleteReviewRequest) (s : σ) :
    (∀ s1, repo.getByID (uintOfInt64 dreq.Id) s = (.error .notFound, s1) →
        (ReviewService.delete false repo dreq s).1 = .error Code.notFound ∧
        (ReviewService.delete false repo dreq s).2.1 =
          [.getByID (uintOfInt64 dreq.Id)]) ∧
    (∀ d s1, repo.getByID (uintOfInt64 dreq.Id) s = (.error (.other d), s1) →
        (ReviewService.delete false repo dreq s).1 = .error Code.internal) ∧
    (∀ r0 s1, repo.getByID (uintOfInt64 dreq.Id) s = (.ok r0, s1) →
        (ReviewService.delete false repo dreq s).2.1 =
          [.getByID (uintOfInt64 dreq.Id), .delete (uintOfInt64 dreq.Id)] ∧
        (∀ s2, repo.delete (uintOfInt64 dreq.Id) s1 = (.ok (), s2) →
            (ReviewService.delete false repo dreq s).1 = .ok true) ∧
        (∀ d s2, repo.delete (uintOfInt64 dreq.Id) s1 = (.error (.other d), s2) →
            (ReviewService.delete false repo dreq s).1 = .error Code.internal)) := by
  refine ⟨?_, ?_, ?_⟩
  · intro s1 h
    constructor <;> simp [ReviewService.delete, checkContextCancelled, h]
  · intro d s1 h
    simp [ReviewService.delete, checkContextCancelled, h]
  · intro r0 s1 h
    refine ⟨?_, ?_, ?_⟩
    · rcases hd : repo.delete (uintOfInt64 dreq.Id) s1 with ⟨e | v, s2⟩
      all_goals simp [ReviewService.delete, checkContextCancelled, h, hd]
    · intro s2 hd
      simp [ReviewService.delete, checkContextCancelled, h, hd]
    · intro d s2 hd
      simp [ReviewService.delete, checkContextCancelled, h, hd]

/-- C5 witness: delete of an absent id on the empty store is NotFound with no
delete call; delete of the sample row performs the check, then the delete,
and reports success. -/
theorem delete_checks_existence_first_witness :
    ((ReviewService.delete false (storeRepo false) dreq9 store0).1 =
        .error Code.notFound ∧
      (ReviewService.delete false (storeRepo false) dreq9 store0).2.1 =
        [.getByID (uintOfInt64 dreq9.Id)]) ∧
    ((ReviewService.delete false (storeRepo false) dreq1 store1).2.1 =
        [.getByID (uintOfInt64 dreq1.Id), .delete (uintOfInt64 dreq1.Id)] ∧
      (ReviewService.delete false (storeRepo false) dreq1 store1).1 = .ok true) :=
  ⟨(delete_checks_existence_first (storeRepo false) dreq9 store0).1 store0 rfl,
   ((delete_checks_existence_first (storeRepo false) dreq1 store1).2.2
        row1 store1 rfl).1,
   (((delete_checks_existence_first (storeRepo false) dreq1 store1).2.2
        row1 store1 rfl).2.1 _ rfl)⟩

/-- C6 fails as stated: an Update whose rating is nonzero and outside [1,10]
does reach the storage port — the handler fetches the current record before
validating the rating, so the InvalidArgument outcome is produced after a
storage call has already been made. -/
theorem update_invalid_rating_storage_call_cx :
    (ReviewService.update false (storeRepo false) ureq11 store1).1 =
      .error Code.invalidArgument ∧
    (ReviewService.update false (storeRepo false) ureq11 store1).2.1 ≠ [] := by
  constructor
  · rfl
  · intro h
    simp [ReviewService.update, checkContextCancelled, storeRepo, Store.getRow,
      store1, row1, ureq11, uintOfInt64] at h

/-- C6 amended: rating-validation failures are reported before any mutating
storage call.  Create and GetByRating reject an out-of-range rating before
any storage call at all; Update validates only after its record fetch, so an
Update with a nonzero out-of-range rating issues exactly that fetch and no
update call. -/
theorem validation_before_mutation (repo : Repo σ) (s : σ)
    (creq : CreateReviewRequest) (rreq : GetByRatingRequest)
    (ureq : UpdateReviewRequest)
    (hc : creq.Rating < 1 ∨ creq.Rating > 10)
    (hr : rreq.Rating < 1 ∨ rreq.Rating > 10)
    (hu : ureq.Rating ≠ 0 ∧ (ureq.Rating < 1 ∨ ureq.Rating > 10)) :
    (ReviewService.create false repo creq s).2.1 = [] ∧
    (ReviewService.getByRating false repo rreq s).2.1 = [] ∧
    (∀ r0 s1, repo.getByID (uintOfInt64 ureq.Id) s = (.ok r0, s1) →
        (ReviewService.update false repo ureq s).1 = .error Code.invalidArgument ∧
        (ReviewService.update false repo ureq s).2.1 =
          [.getByID (uintOfInt64 ureq.Id)]) := by
  refine ⟨?_, ?_, ?_⟩
  · simp [ReviewService.create, checkContextCancelled, hc]
  · simp [ReviewService.getByRating, checkContextCancelled, hr]
  · intro r0 s1 h
    constructor <;> simp [ReviewService.update, checkContextCancelled, h, hu]

/-- C6 amended witness: invalid create and rating filters make no storage
call; the invalid update on the sample store makes only the fetch call. -/
theorem validation_before_mutation_witness :
    (ReviewService.create false (storeRepo false) creq11 store1).2.1 = [] ∧
    (ReviewService.getByRating false (storeRepo false) rreq11 store1).2.1 = [] ∧
    ((ReviewService.update false (storeRepo false) ureq11 store1).1 =
        .error Code.invalidArgument ∧
      (ReviewService.update false (storeRepo false) ureq11 store1).2.1 =
        [.getByID (uintOfInt64 ureq11.Id)]) :=
  ⟨(validation_before_mutation (storeRepo false) store1 creq11 rreq11 ureq11
      (by decide) (by decide) (by decide)).1,
   (validation_before_mutation (storeRepo false) store1 creq11 rreq11 ureq11
      (by decide) (by decide) (by decide)).2.1,
   (validation_before_mutation (storeRepo false) store1 creq11 rreq11 ureq11
      (by decide) (by decide) (by decide)).2.2 row1 store1 rfl⟩

/-- C8: each list operation (GetAll, GetByRating with in-range rating,
GetByUser, GetByMedia) maps a zero-row successful storage reply to the
successful outcome carrying the empty sequence. -/
theorem list_ops_empty_success (repo : Repo σ) (s : σ)
    (rreq : GetByRatingRequest) (ureq : GetByUserRequest)
    (mreq : GetByMediaRequest) :
    (∀ s1, repo.getAll s = (.ok [], s1) →
        (ReviewService.getAll false repo s).1 = .ok []) ∧
    (¬(rreq.Rating < 1 ∨ rreq.Rating > 10) →
        ∀ s1, repo.getByRating rreq.Rating s = (.ok [], s1) →
          (ReviewService.getByRating false repo rreq s).1 = .ok []) ∧
    (∀ s1, repo.getByUser (uintOfInt64 ureq.UserId) s = (.ok [], s1) →
        (ReviewService.getByUser false repo ureq s).1 = .ok []) ∧
    (∀ s1, repo.getByMedia (uintOfInt64 mreq.MediaId) s = (.ok [], s1) →
        (ReviewService.getByMedia false repo mreq s).1 = .ok []) := by
  refine ⟨?_, ?_, ?_, ?_⟩
  · intro s1 h
    simp [ReviewService.getAll, checkContextCancelled, h]
  · intro hr s1 h
    simp [ReviewService.getByRating, checkContextCancelled, hr, h]
  · intro s1 h
    simp [ReviewService.getByUser, checkContextCancelled, h]
  · intro s1 h
    simp [ReviewService.getByMedia, checkContextCancelled, h]

/-- C8 witness: every list operation on the empty store succeeds with the
empty sequence. -/
theorem list_ops_empty_success_witness :
    (ReviewService.getAll false (storeRepo false) store0).1 = .ok [] ∧
    (ReviewService.getByRating false (storeRepo false) rreq5 store0).1 = .ok [] ∧
    (ReviewService.getByUser false (storeRepo false) uflt3 store0).1 = .ok [] ∧
    (ReviewService.getByMedia false (storeRepo false) mflt7 store0).1 = .ok [] :=
  ⟨(list_ops_empty_success (storeRepo false) store0 rreq5 uflt3 mflt7).1
      store0 rfl,
   (list_ops_empty_success (storeRepo false) store0 rreq5 uflt3 mflt7).2.1
      (by decide) store0 rfl,
   (list_ops_empty_success (storeRepo false) store0 rreq5 uflt3 mflt7).2.2.1
      store0 rfl,
   (list_ops_empty_success (storeRepo false) store0 rreq5 uflt3 mflt7).2.2.2
      store0 rfl⟩

/-- C10: Create validates only the rating.  For any request with an in-range
rating, the request record — mediaId, authorId and content taken verbatim
from the request, whatever they are — is passed to the storage port, and the
outcome is never InvalidArgument. -/
theorem create_validates_only_rating (repo : Repo σ) (s : σ)
    (creq : CreateReviewRequest)
    (hr : ¬(creq.Rating < 1 ∨ creq.Rating > 10)) :
    (ReviewService.create false repo creq s).2.1 =
      [.create (gormReviewOfCreate creq)] ∧
    (ReviewService.create false repo creq s).1 ≠ .error Code.invalidArgument := by
  rcases hc : repo.create (gormReviewOfCreate creq) s with ⟨e | ⟨i, c, u⟩, s2⟩
  all_goals
    constructor <;> simp [ReviewService.create, checkContextCancelled, hr, hc]

/-- C10 witness: a create request with empty content and in-range rating
reaches storage (one create call carrying the empty content) instead of
being rejected. -/
theorem create_validates_only_rating_witness :
    (ReviewService.create false (storeRepo false) creqEmpty store0).2.1 =
      [.create (gormReviewOfCreate creqEmpty)] ∧
    (ReviewService.create false (storeRepo false) creqEmpty store0).1 ≠
      .error Code.invalidArgument :=
  create_validates_only_rating (storeRepo false) store0 creqEmpty (by decide)

/-- C9: the wire translation maps id, mediaId, userId, content and rating
directly from the stored record (widening the integer fields) and renders
both timestamps through the RFC3339 formatter; and a successful operation's
response is exactly this translation of the record it acted on — the fetched
record for GetByID, the stored record with the engine-assigned id and
timestamps for Create, the merged record for Update, and the translated rows
for GetAll. -/
theorem proto_translation_of_success (repo : Repo σ) (s : σ) (g : GormReview)
    (creq : CreateReviewRequest) (greq : GetReviewRequest)
    (ureq : UpdateReviewRequest) :
    ((ConvertToProtoReview g).Id = int64OfUint g.ID ∧
     (ConvertToProtoReview g).MediaId = int64OfUint g.MediaID ∧
     (ConvertToProtoReview g).UserId = int64OfUint g.UserID ∧
     (ConvertToProtoReview g).Content = g.Content ∧
     (ConvertToProtoReview g).Rating = int32OfInt g.Rating ∧
     (ConvertToProtoReview g).CreatedAt = timeFormatRFC3339 g.CreatedAt ∧
     (ConvertToProtoReview g).UpdatedAt = timeFormatRFC3339 g.UpdatedAt) ∧
    (∀ r s1, repo.getByID (uintOfInt64 greq.Id) s = (.ok r, s1) →
        (ReviewService.getByID false repo greq s).1 =
          .ok (ConvertToProtoReview r)) ∧
    (∀ i c u s1, ¬(creq.Rating < 1 ∨ creq.Rating > 10) →
        repo.create (gormReviewOfCreate creq) s = (.ok (i, c, u), s1) →
        (ReviewService.create false repo creq s).1 =
          .ok (ConvertToProtoReview
            { gormReviewOfCreate creq with
                ID := i, CreatedAt := c, UpdatedAt := u })) ∧
    (∀ r0 s1 v s2, repo.getByID (uintOfInt64 ureq.Id) s = (.ok r0, s1) →
        ¬(ureq.Rating ≠ 0 ∧ (ureq.Rating < 1 ∨ ureq.Rating > 10)) →
        repo.update (mergedReview r0 ureq) s1 = (.ok v, s2) →
        (ReviewService.update false repo ureq s).1 =
          .ok (ConvertToProtoReview (mergedReview r0 ureq))) ∧
    (∀ rs s1, repo.getAll s = (.ok rs, s1) →
        (ReviewService.getAll false repo s).1 =
          .ok (rs.map ConvertToProtoReview)) := by
  refine ⟨⟨rfl, rfl, rfl, rfl, rfl, rfl, rfl⟩, ?_, ?_, ?_, ?_⟩
  · intro r s1 h
    simp [ReviewService.getByID, checkContextCancelled, h]
  · intro i c u s1 hr h
    simp [ReviewService.create, checkContextCancelled, hr, h]
  · intro r0 s1 v s2 hget hQ hupd
    simp [ReviewService.update, checkContextCancelled, hget, hQ, hupd]
  · intro rs s1 h
    simp [ReviewService.getAll, checkContextCancelled, h]

/-- C9 witness: the translation law at the sample row, and the translated
responses of a fetch, a create and a no-op update on the sample stores. -/
theorem proto_translation_of_success_witness :
    ((ConvertToProtoReview row1).Id = int64OfUint row1.ID ∧
     (ConvertToProtoReview row1).MediaId = int64OfUint row1.MediaID ∧
     (ConvertToProtoReview row1).UserId = int64OfUint row1.UserID ∧
     (ConvertToProtoReview row1).Content = row1.Content ∧
     (ConvertToProtoReview row1).Rating = int32OfInt row1.Rating ∧
     (ConvertToProtoReview row1).CreatedAt = timeFormatRFC3339 row1.CreatedAt ∧
     (ConvertToProtoReview row1).UpdatedAt = timeFormatRFC3339 row1.UpdatedAt) ∧
    (ReviewService.getByID false (storeRepo false) greq1 store1).1 =
      .ok (ConvertToProtoReview row1) ∧
    (ReviewService.create false (storeRepo false) creq9 store0).1 =
      .ok (ConvertToProtoReview
        { gormReviewOfCreate creq9 with
            ID := store0.nextId, CreatedAt := store0.now,
            UpdatedAt := store0.now }) ∧
    (ReviewService.update false (storeRepo false) ureq0 store1).1 =
      .ok (ConvertToProtoReview (mergedReview row1 ureq0)) ∧
    (ReviewService.getAll false (storeRepo false) store1).1 =
      .ok ([row1].map ConvertToProtoReview) :=
  ⟨(proto_translation_of_success (storeRepo false) store1 row1 creq9 greq1
      ureq0).1,
   (proto_translation_of_success (storeRepo false) store1 row1 creq9 greq1
      ureq0).2.1 row1 store1 rfl,
   (proto_translation_of_success (storeRepo false) store0 row1 creq9 greq1
      ureq0).2.2.1 store0.nextId store0.now store0.now
      { rows := [{ gormReviewOfCreate creq9 with
          ID := store0.nextId, CreatedAt := store0.now,
          UpdatedAt := store0.now }], nextId := store0.nextId + 1,
        now := store0.now } (by decide) rfl,
   (proto_translation_of_success (storeRepo false) store1 row1 creq9 greq1
      ureq0).2.2.2.1 row1 store1 ()
      ((storeRepo false).update (mergedReview row1 ureq0) store1).2
      rfl (by decide) rfl,
   (proto_translation_of_success (storeRepo false) store1 row1 creq9 greq1
      ureq0).2.2.2.2 [row1] store1 rfl⟩

/-- Auxiliary: a linear search skips a leading block on which the predicate
is false. -/
theorem find_skip_of_false (p : GormReview → Bool) (l1 l2 : List GormReview)
    (h : ∀ r ∈ l1, p r = false) :
    List.find? p (l1 ++ l2) = List.find? p l2 := by
  induction l1 with
  | nil => rfl
  | cons a t ih =>
      have ha : p a = false := h a (List.mem_cons_self a t)
      simp only [List.cons_append, List.find?, ha]
      exact ih (fun r hr => h r (List.mem_cons_of_mem a hr))

/-- Auxiliary: a uint value below 2^63 survives the trip through the wire
int64 and back. -/
theorem uintOfInt64_int64OfUint (u : Nat) (h : u < 2 ^ 63) :
    uintOfInt64 (int64OfUint u) = u := by
  have h64 : u < 2 ^ 64 := by omega
  simp [uintOfInt64, int64OfUint, Nat.mod_eq_of_lt h64, h]
  omega

/-- C7: a successful Create followed by GetByID on the returned id, with no
intervening mutation, returns exactly the record Create returned (its
engine-assigned id and timestamps already fixed to the stored values). -/
theorem create_then_getByID_roundtrip (s : Store) (creq : CreateReviewRequest)
    (hr : ¬(creq.Rating < 1 ∨ creq.Rating > 10))
    (hid : s.nextId < 2 ^ 63)
    (hfresh : ∀ r ∈ s.rows, r.ID ≠ s.nextId) :
    ∃ p : ProtoReview,
      (ReviewService.create false (storeRepo false) creq s).1 = .ok p ∧
      (ReviewService.getByID false (storeRepo false) { Id := p.Id }
          (ReviewService.create false (storeRepo false) creq s).2.2).1 =
        .ok p := by
  refine ⟨ConvertToProtoReview
    { gormReviewOfCreate creq with
        ID := s.nextId, CreatedAt := s.now, UpdatedAt := s.now }, ?_, ?_⟩
  · simp [ReviewService.create, checkContextCancelled, hr, storeRepo,
      Store.createRow]
  · have hstate : (ReviewService.create false (storeRepo false) creq s).2.2 =
        { s with
            rows := s.rows ++ [{ gormReviewOfCreate creq with
              ID := s.nextId, CreatedAt := s.now, UpdatedAt := s.now }]
            nextId := s.nextId + 1 } := by
      simp [ReviewService.create, checkContextCancelled, hr, storeRepo,
        Store.createRow]
    rw [hstate]
    have hfind : List.find? (fun q => q.ID == s.nextId)
        (s.rows ++ [{ gormReviewOfCreate creq with
          ID := s.nextId, CreatedAt := s.now, UpdatedAt := s.now }]) =
        some { gormReviewOfCreate creq with
          ID := s.nextId, CreatedAt := s.now, UpdatedAt := s.now } := by
      rw [find_skip_of_false]
      · simp [List.find?]
      · intro r hrr
        simp [hfresh r hrr]
    simp [ReviewService.getByID, checkContextCancelled, storeRepo,
      Store.getRow, uintOfInt64_int64OfUint s.nextId hid, ConvertToProtoReview,
      hfind]

/-- C7 witness: the round trip on the sample store. -/
theorem create_then_getByID_roundtrip_witness :
    ∃ p : ProtoReview,
      (ReviewService.create false (storeRepo false) creq9 store1).1 = .ok p ∧
      (ReviewService.getByID false (storeRepo false) { Id := p.Id }
          (ReviewService.create false (storeRepo false) creq9 store1).2.2).1 =
        .ok p :=
  create_then_getByID_roundtrip store1 creq9 (by decide) (by decide) (by decide)

end WatchlistReview
